import Mathlib

/-!
# Verification of the meeting-scheduler availability engine

Shallow embedding of `src/meeting_scheduler_mcp/calendar.py` and
`src/meeting_scheduler_mcp/holidays.py`.

Modelling conventions:
* Wall-clock times of day are minutes from midnight (`TimeM := Nat`);
  Python `datetime.time` values compare exactly like these minute counts.
* Calendar days (for the slot finder) are day numbers (`DateD := Nat`);
  day 0 is taken to be a Monday, so `isoweekday = d % 7 + 1`.
* Timezone-aware instants are seconds on a single linear timeline
  (`Int`); `datetime.combine(d, t, tz)` becomes `d * 86400 + t * 60`.
  All instants of one document live in the document's timezone, so the
  linear model reproduces every comparison the Python code performs.
* Fallible Python code (functions that may raise) returns
  `Except String _`; the message is the `ValueError` text.
* The pandas holiday-rule engine is kept abstract: a rule table is a
  function from a (start, end) window to the list of holiday dates it
  produces, and the name lookup is an association list.  The *window
  arithmetic* of `HolidayChecker.__init__` (pandas `DateOffset(years=n)`,
  which shifts the year and clamps the day to the target month's length)
  is modelled exactly, on calendar dates `CDate`.
-/

namespace MeetingScheduler

/-- Minutes from midnight (Python `datetime.time` at minute resolution). -/
abbrev TimeM := Nat

/-- Day number; day 0 is a Monday. -/
abbrev DateD := Nat

/-- `date.isoweekday()`: 1 = Monday .. 7 = Sunday. -/
def isoWeekday (d : DateD) : Nat := d % 7 + 1

/-- `datetime.combine(d, t, tzinfo=tz)` as seconds on the linear timeline. -/
def slotDT (d : DateD) (t : TimeM) : Int := (d : Int) * 86400 + (t : Int) * 60

/-- `TimeSlot`: a time window within a day (`calendar.py` lines 44-57). -/
structure TimeSlot where
  startT : TimeM
  endT : TimeM
deriving DecidableEq, Repr

/-- `WeeklyAvailability`: weekday ordinals (via `Weekday.iso_weekday`)
paired with time windows (`calendar.py` lines 60-70). -/
structure WeeklyAvailability where
  days : List Nat
  slots : List TimeSlot
deriving DecidableEq, Repr

/-- The `datetime` / `until` strings of a `BlockedTime`: either a bare date
(no `"T"` in the string, an all-day entry) or a full instant. -/
inductive BTStart where
  | allDay (d : DateD)
  | instant (t : Int)
deriving DecidableEq, Repr

/-- `BlockedTime` (`calendar.py` lines 73-116). -/
structure BlockedTime where
  datetime : BTStart
  duration : Option Int := none
  «until» : Option BTStart := none
  reason : Option String := none
deriving DecidableEq, Repr

/-- Pydantic construction of a `BlockedTime`, including the
`validate_duration_or_until` model validator (`calendar.py` lines 80-84):
the only construction-time check is that `duration` and `until` are not
both set. -/
def mkBlockedTime (datetime : BTStart) (duration : Option Int)
    («until» : Option BTStart) (reason : Option String) :
    Except String BlockedTime :=
  if duration.isSome && «until».isSome then
    .error "Either duration or until must be specified, not both"
  else
    .ok { datetime := datetime, duration := duration, «until» := «until», reason := reason }

/-- `BlockedTime.is_all_day`: true iff the `datetime` string has no time
component (`calendar.py` lines 86-88). -/
def BlockedTime.is_all_day (b : BlockedTime) : Bool :=
  match b.datetime with
  | .allDay _ => true
  | .instant _ => false

/-- `BlockedTime.get_start` (`calendar.py` lines 90-95): an all-day entry
starts at midnight of its date. -/
def BlockedTime.get_start (b : BlockedTime) : Int :=
  match b.datetime with
  | .allDay d => (d : Int) * 86400
  | .instant t => t

/-- `BlockedTime.get_end` (`calendar.py` lines 97-116).  Mirrors the Python
control flow exactly, including the truthiness test `if self.duration:`
under which a stored duration of `0` behaves as if absent, so that a
timed entry with `duration = 0` falls through to the final `raise`. -/
def BlockedTime.get_end (b : BlockedTime) : Except String Int :=
  match b.«until» with
  | some (.instant u) => .ok u
  | some (.allDay d) => .ok ((d : Int) * 86400 + 86399)
  | none =>
    let fallback : Except String Int :=
      match b.datetime with
      | .allDay d => .ok ((d : Int) * 86400 + 86399)
      | .instant _ => .error "Either duration, until, or all-day date required"
    match b.duration with
    | some n => if n ≠ 0 then .ok (b.get_start + n * 60) else fallback
    | none => fallback

/-- `Schedule` (`calendar.py` lines 119-137).  `slot_duration` is validated
by pydantic to lie in `[5, 480]`; the timezone string is kept opaque. -/
structure Schedule where
  timezone : String
  slot_duration : Nat
  holidays : Option String := none
  weekly : List WeeklyAvailability
deriving DecidableEq, Repr

/-- `Calendar`: root model for `calendar.yaml` (`calendar.py` lines 140-143). -/
structure Calendar where
  schedule : Schedule
  blocked : List BlockedTime := []
deriving DecidableEq, Repr

/-- `AvailableSlot` (`calendar.py` lines 146-174). -/
structure AvailableSlot where
  date : DateD
  start_time : TimeM
  end_time : TimeM
  timezone : String
deriving DecidableEq, Repr

/-- The lookup state of a constructed `HolidayChecker` as the slot finder
uses it (`holidays.py` lines 45-84): `is_holiday` is membership in the
precomputed date set; `get_holiday_name` returns the first rule whose
evaluation yields the queried date (rule errors are swallowed), modelled
as an association-list lookup. -/
structure HolidayChecker where
  holidays : List DateD := []
  names : List (DateD × String) := []
deriving DecidableEq, Repr

/-- `HolidayChecker.is_holiday` (`holidays.py` lines 64-66). -/
def HolidayChecker.is_holiday (hc : HolidayChecker) (d : DateD) : Bool :=
  hc.holidays.contains d

/-- `HolidayChecker.get_holiday_name` (`holidays.py` lines 68-84). -/
def HolidayChecker.get_holiday_name (hc : HolidayChecker) (d : DateD) : Option String :=
  (hc.names.find? (fun p => p.1 == d)).map (·.2)

/-- The half-open interval-overlap test used for slots and blocks
(`calendar.py` line 309 and line 351):
`slot_start < block_end and block_start < slot_end`. -/
def overlaps (s1 e1 s2 e2 : Int) : Bool :=
  decide (s1 < e2) && decide (s2 < e1)

/-- `SlotFinder._is_blocked` (`calendar.py` lines 298-312): walk the blocked
list in order; resolving a block's end may raise, which propagates, but the
loop returns at the first overlapping block, so blocks after it are never
resolved. -/
def is_blockedE (blocked : List BlockedTime) (slot_start slot_end : Int) :
    Except String Bool :=
  match blocked with
  | [] => .ok false
  | b :: rest => do
    let block_end ← b.get_end
    if overlaps slot_start slot_end b.get_start block_end then .ok true
    else is_blockedE rest slot_start slot_end

/-- The reason-recovery loop inside `SlotFinder.is_slot_bookable`
(`calendar.py` lines 344-352): the first overlapping block's stored
reason, defaulting to `"Blocked"`. -/
def firstOverlapReason (blocked : List BlockedTime) (slot_start slot_end : Int) :
    Except String (Option String) :=
  match blocked with
  | [] => .ok none
  | b :: rest => do
    let block_end ← b.get_end
    if overlaps slot_start slot_end b.get_start block_end then
      .ok (some (b.reason.getD "Blocked"))
    else firstOverlapReason rest slot_start slot_end

/-- The `weekly_slots` gathering loop of `SlotFinder._get_slots_for_date`
(`calendar.py` lines 259-265): concatenate, in document order, the slots of
every weekly entry whose weekday set contains the given ISO weekday. -/
def gatherSlots (cal : Calendar) (wd : Nat) : List TimeSlot :=
  (cal.schedule.weekly.filter (fun w => w.days.any (fun day => day == wd))).flatMap
    (fun w => w.slots)

/-- The starts visited by the candidate-generation `while` loop of
`_get_slots_for_date` (`calendar.py` lines 274-294): from the interval
start in steps of the granularity, while the candidate still ends within
the interval (inclusive end).  For a positive granularity `dur` these are
exactly `start + k * dur` for `k < (end - start) / dur`. -/
def candidateStarts (dur : Nat) (ts : TimeSlot) : List TimeM :=
  (List.range ((ts.endT - ts.startT) / dur)).map (fun k => ts.startT + k * dur)

/-- The per-candidate filter of the `while` loop (`calendar.py` lines
278-294): keep a candidate iff its start is at or after `min_bookable`
and it is not blocked; the blocked test runs only when the notice test
passed (Python `and` short-circuits), so a poisoned block cannot raise on
a candidate that is below the notice cutoff. -/
def filterCandidates (blocked : List BlockedTime) (tz : String) (d : DateD)
    (min_bookable : Int) (dur : Nat) :
    List TimeM → Except String (List AvailableSlot)
  | [] => .ok []
  | s :: rest =>
    if min_bookable ≤ slotDT d s then do
      let b ← is_blockedE blocked (slotDT d s) (slotDT d (s + dur))
      let tail ← filterCandidates blocked tz d min_bookable dur rest
      if b then .ok tail
      else .ok ({ date := d, start_time := s, end_time := s + dur, timezone := tz } :: tail)
    else filterCandidates blocked tz d min_bookable dur rest

/-- The outer `for time_slot in weekly_slots` loop of
`_get_slots_for_date` (`calendar.py` lines 274-296). -/
def slotsForIntervals (blocked : List BlockedTime) (tz : String) (d : DateD)
    (min_bookable : Int) (dur : Nat) :
    List TimeSlot → Except String (List AvailableSlot)
  | [] => .ok []
  | ts :: rest => do
    let here ← filterCandidates blocked tz d min_bookable dur (candidateStarts dur ts)
    let later ← slotsForIntervals blocked tz d min_bookable dur rest
    .ok (here ++ later)

/-- `SlotFinder._get_slots_for_date` (`calendar.py` lines 250-296). -/
def get_slots_for_date (cal : Calendar) (hc : HolidayChecker) (d : DateD)
    (min_bookable : Int) : Except String (List AvailableSlot) :=
  if hc.is_holiday d then .ok []
  else if (gatherSlots cal (isoWeekday d)).isEmpty then .ok []
  else
    slotsForIntervals cal.blocked cal.schedule.timezone d min_bookable
      cal.schedule.slot_duration (gatherSlots cal (isoWeekday d))

/-- The day-iteration `while` loop of `find_available_slots`
(`calendar.py` lines 241-246): `remaining` counts the days still inside
`[current, to_date]`, so `remaining = 0` is exactly the exit condition
`current > to_date`; the other exit condition is
`len(available) >= max_results`. -/
def findLoop (cal : Calendar) (hc : HolidayChecker) (min_bookable : Int)
    (max_results : Nat) :
    Nat → DateD → List AvailableSlot → Except String (List AvailableSlot)
  | 0, _, acc => .ok acc
  | remaining + 1, current, acc =>
    if acc.length < max_results then do
      let day_slots ← get_slots_for_date cal hc current min_bookable
      findLoop cal hc min_bookable max_results remaining (current + 1) (acc ++ day_slots)
    else .ok acc

/-- `SlotFinder.find_available_slots` (`calendar.py` lines 226-248).
`now` is the construction-time instant `datetime.now(self.tz)` in seconds;
`now / 86400` (floor) is `now.date()`.  The final result is truncated to
`max_results` (`available[:max_results]`). -/
def find_available_slots (cal : Calendar) (hc : HolidayChecker) (now : Int)
    (from_date? to_date? : Option DateD) (max_results : Nat)
    (min_notice_hours : Int) : Except String (List AvailableSlot) := do
  let from_date := from_date?.getD (now / 86400).toNat
  let to_date := to_date?.getD (from_date + 30)
  let min_bookable : Int := now + min_notice_hours * 3600
  let available ← findLoop cal hc min_bookable max_results
    (to_date + 1 - from_date) from_date []
  .ok (available.take max_results)

/-- The weekday-availability scan of `is_slot_bookable`
(`calendar.py` lines 329-338): some weekly entry for this weekday has an
interval fully containing `[start, end]`. -/
def day_available (cal : Calendar) (wd : Nat) (start «end» : TimeM) : Bool :=
  cal.schedule.weekly.any (fun w =>
    w.days.any (fun day => day == wd) &&
      w.slots.any (fun ts => decide (ts.startT ≤ start) && decide («end» ≤ ts.endT)))

/-- `SlotFinder.is_slot_bookable` (`calendar.py` lines 314-354). -/
def is_slot_bookable (cal : Calendar) (hc : HolidayChecker) (now : Int)
    (d : DateD) (start «end» : TimeM) : Except String (Bool × String) :=
  let slot_dt := slotDT d start
  if slot_dt < now then .ok (false, "Timepoint is in the past")
  else if hc.is_holiday d then .ok (false, (hc.get_holiday_name d).getD "Holiday")
  else if !day_available cal (isoWeekday d) start «end» then
    .ok (false, "Outside of availability")
  else do
    let blockedHit ← is_blockedE cal.blocked (slotDT d start) (slotDT d «end»)
    if blockedHit then
      match ← firstOverlapReason cal.blocked (slotDT d start) (slotDT d «end») with
      | some r => .ok (false, r)
      | none => .ok (true, "")
    else .ok (true, "")

/-- `CalendarManager.get_free_slots` (`calendar.py` lines 394-409):
the document load and the whole slot search run inside `try/except`
handlers that catch every exception and degrade to `[]`.  `loadRes` is
the outcome of `CalendarStore.load`; `mkChecker` abstracts building the
`HolidayChecker` from the document's region code. -/
def get_free_slots (loadRes : Except String Calendar)
    (mkChecker : Calendar → HolidayChecker) (now : Int) : List AvailableSlot :=
  match loadRes with
  | .error _ => []
  | .ok cal =>
    match find_available_slots cal (mkChecker cal) now none none 50 2 with
    | .error _ => []
    | .ok slots => slots

/-- `CalendarManager.save_draft_and_block_slot` (`calendar.py` lines
411-477), over the persisted blocked list `st`.  `parseRes` is the outcome
of `datetime.fromisoformat(datetime_str)`; `storageOk` says whether the
load/append/save in `CalendarStore.add_blocked` succeeded (when it is
`false` the raised error is caught and nothing was persisted);
`emailRes` is the draft-saving step: `.error` models a raised transport
exception (caught, yielding `False`), `.ok b` its returned boolean.
Every failure path returns `false`; an email failure happens after the
block was appended and saved, so the new block stays. -/
def save_draft_and_block_slot (st : List BlockedTime) (parseRes : Option Int)
    (duration : Int) (reason : String) (storageOk : Bool)
    (emailRes : Except String Bool) : Bool × List BlockedTime :=
  match parseRes with
  | none => (false, st)
  | some slot_start =>
    if duration ≤ 0 then (false, st)
    else if !storageOk then (false, st)
    else
      let st' := st ++
        [{ datetime := .instant slot_start, duration := some duration,
           «until» := none, reason := some reason }]
      match emailRes with
      | .error _ => (false, st')
      | .ok success => (success, st')

/-- A calendar date, for modelling the pandas window arithmetic in
`HolidayChecker.__init__` (`holidays.py` lines 52-62). -/
structure CDate where
  year : Int
  month : Nat
  day : Nat
deriving DecidableEq, Repr

/-- Gregorian leap-year rule (as used by pandas timestamps). -/
def isLeapYear (y : Int) : Bool :=
  (y % 4 == 0 && y % 100 != 0) || y % 400 == 0

/-- Length of a month. -/
def daysInMonth (y : Int) (m : Nat) : Nat :=
  if m = 2 then (if isLeapYear y then 29 else 28)
  else if m = 4 ∨ m = 6 ∨ m = 9 ∨ m = 11 then 30
  else 31

/-- `pd.DateOffset(years=n)` applied to a date: shift the year by `n` and
clamp the day to the length of the resulting month (Feb 29 → Feb 28). -/
def addYears (d : CDate) (n : Int) : CDate :=
  { year := d.year + n, month := d.month,
    day := min d.day (daysInMonth (d.year + n) d.month) }

/-- `start = pd.Timestamp.now().floor("D") - pd.DateOffset(years=1)`
(`holidays.py` line 59). -/
def holidayWindowStart (now : CDate) : CDate := addYears now (-1)

/-- `end = start + pd.DateOffset(years=3)` (`holidays.py` line 60). -/
def holidayWindowEnd (now : CDate) : CDate := addYears (holidayWindowStart now) 3

/-- The constructed state of a `HolidayChecker` over calendar dates
(`holidays.py` lines 45-62). -/
structure HolidayCheckerC where
  country_code : Option String
  holidaySet : List CDate
deriving DecidableEq, Repr

/-- `HolidayChecker.__init__` (`holidays.py` lines 52-62).  `calendars`
is the class-level rule-table registry `_calendars`; a rule table is
abstracted as the function `cal.holidays(start, end)` producing the
holiday dates inside a window.  With a known region code the checker
precomputes the table over `[holidayWindowStart now, holidayWindowEnd now]`;
otherwise the set stays empty. -/
def mkHolidayChecker (calendars : List (String × (CDate → CDate → List CDate)))
    (country_code : Option String) (now : CDate) : HolidayCheckerC :=
  match country_code with
  | none => { country_code := none, holidaySet := [] }
  | some c =>
    match calendars.find? (fun p => p.1 == c) with
    | none => { country_code := some c, holidaySet := [] }
    | some p =>
      { country_code := some c,
        holidaySet := p.2 (holidayWindowStart now) (holidayWindowEnd now) }

/-- `HolidayChecker.is_holiday` over calendar dates
(`holidays.py` lines 64-66). -/
def HolidayCheckerC.is_holiday (hc : HolidayCheckerC) (d : CDate) : Bool :=
  hc.holidaySet.contains d

/-! ### Derived orderings and concrete documents used in the theorems -/

/-- Chronological order on produced slots: date ascending, and start time
ascending within one date. -/
def slotLt (a b : AvailableSlot) : Prop :=
  a.date < b.date ∨ (a.date = b.date ∧ a.start_time < b.start_time)

instance : DecidableRel slotLt := fun a b => by
  unfold slotLt; exact inferInstance

/-- Weak date order on produced slots. -/
def dateLe (a b : AvailableSlot) : Prop := a.date ≤ b.date

instance : DecidableRel dateLe := fun a b => by
  unfold dateLe; exact inferInstance

/-- The gathered weekly intervals of every weekday are chronologically
chained: each listed interval ends no later than any later listed one
begins. -/
def intervalsChained (cal : Calendar) : Prop :=
  ∀ wd, wd ≤ 7 → List.Pairwise (fun t1 t2 => t1.endT ≤ t2.startT) (gatherSlots cal wd)

instance (cal : Calendar) : Decidable (intervalsChained cal) := by
  unfold intervalsChained; exact Nat.decidableBallLE 7 _

/-- A checker with no region code: no date is ever a holiday. -/
def hcEmpty : HolidayChecker := {}

/-- Checker construction ignoring the document (no region code). -/
def mkEmptyChecker : Calendar → HolidayChecker := fun _ => hcEmpty

/-- A document with the single weekly interval [09:00, 12:00) on Mondays
and 30-minute granularity. -/
def calMorning : Calendar :=
  { schedule := { timezone := "Europe/Berlin", slot_duration := 30,
                  holidays := none,
                  weekly := [{ days := [1], slots := [{ startT := 540, endT := 720 }] }] },
    blocked := [] }

/-- A document whose Monday intervals are listed out of chronological
order: [13:00, 17:00) before [09:00, 12:00). -/
def calUnordered : Calendar :=
  { schedule := { timezone := "tz", slot_duration := 30, holidays := none,
                  weekly := [{ days := [1],
                               slots := [{ startT := 780, endT := 1020 },
                                         { startT := 540, endT := 720 }] }] },
    blocked := [] }

/-- A document holding a degenerate block (timed entry with a stored
duration of `0`) whose end cannot be resolved, so that the slot search
raises internally. -/
def calPoisoned : Calendar :=
  { schedule := { timezone := "tz", slot_duration := 30, holidays := none,
                  weekly := [{ days := [1], slots := [{ startT := 540, endT := 720 }] }] },
    blocked := [{ datetime := .instant 0, duration := some 0,
                  «until» := none, reason := none }] }

/-- `calMorning` with a 60-minute block starting Monday 10:00 (day 7),
reason "Standup". -/
def calBlocked : Calendar :=
  { schedule := calMorning.schedule,
    blocked := [{ datetime := .instant 640800, duration := some 60,
                  «until» := none, reason := some "Standup" }] }

/-- A checker that marks day 7 as a holiday named "New Year's Day". -/
def hcNamed : HolidayChecker := { holidays := [7], names := [(7, "New Year's Day")] }

/-- A checker that marks day 7 as a holiday but has no matching name rule. -/
def hcNameless : HolidayChecker := { holidays := [7], names := [] }

/-! ## Theorems -/

/-- `Except` bind on a success. -/
theorem except_bind_ok {α β ε : Type} (a : α) (f : α → Except ε β) :
    (Except.ok a >>= f) = f a := rfl

/-- `Except` bind on a failure. -/
theorem except_bind_error {α β ε : Type} (e : ε) (f : α → Except ε β) :
    ((Except.error e : Except ε α) >>= f) = Except.error e := rfl

/-- C7: the interval-overlap test used for slots and blocked intervals is
symmetric — `overlaps(S,B) = overlaps(B,S)` for every pair of intervals —
and half-open: two intervals where one's end instant equals the other's
start instant never overlap, so boundary-adjacent bookings are legal. -/
theorem overlaps_symm_halfopen (s1 e1 s2 e2 : Int) :
    overlaps s1 e1 s2 e2 = overlaps s2 e2 s1 e1 ∧
    (e1 = s2 → overlaps s1 e1 s2 e2 = false) ∧
    (e2 = s1 → overlaps s1 e1 s2 e2 = false) := by
  refine ⟨?_, ?_, ?_⟩
  · simp [overlaps, Bool.and_comm]
  · rintro rfl; simp [overlaps]
  · rintro rfl; simp [overlaps]

/-- Witness for C7 at concrete intervals: [0,60) and [60,120) touch and do
not overlap; [30,90) and [60,120) overlap symmetrically. -/
theorem overlaps_symm_halfopen_w :
    overlaps 0 60 60 120 = false ∧ overlaps 30 90 60 120 = overlaps 60 120 30 90 :=
  ⟨(overlaps_symm_halfopen 0 60 60 120).2.1 rfl, (overlaps_symm_halfopen 30 90 60 120).1⟩

/-- C2 counterexample: a `BlockedTime` whose datetime has a time component
(so it is not all-day), with neither `duration` nor `until` set, is
accepted at construction — the claim says such a construction must fail. -/
theorem blocked_construction_neither_cex :
    mkBlockedTime (.instant 36000) none none none =
      .ok { datetime := .instant 36000, duration := none, «until» := none, reason := none } ∧
    (BlockedTime.mk (.instant 36000) none none none).is_all_day = false :=
  ⟨rfl, rfl⟩

/-- C2 amended: constructing with both `duration` and `until` set fails
with a validation error; constructing with neither set always succeeds
(whether or not the entry is all-day), but resolving the end of such an
entry (`get_end`) succeeds only when the entry is all-day and raises a
`ValueError` otherwise. -/
theorem blocked_construction_amended (dt : BTStart) (n : Int) (u : BTStart)
    (r : Option String) (t : Int) (d : DateD) :
    mkBlockedTime dt (some n) (some u) r =
      .error "Either duration or until must be specified, not both" ∧
    mkBlockedTime dt none none r =
      .ok { datetime := dt, duration := none, «until» := none, reason := r } ∧
    (BlockedTime.mk (.allDay d) none none r).get_end = .ok ((d : Int) * 86400 + 86399) ∧
    (BlockedTime.mk (.instant t) none none r).get_end =
      .error "Either duration, until, or all-day date required" :=
  ⟨rfl, rfl, rfl, rfl⟩

/-- C10: a `BlockedTime` with a timed datetime and a stored duration of `0`
is accepted at construction, but `get_end` on it raises a `ValueError`
(the zero duration is treated as absent by the truthiness test), and any
operation that resolves that block's end — such as the blocked-overlap
check — fails rather than treating it as an empty interval. -/
theorem zero_duration_block_get_end_fails (t : Int) (r : Option String) (ss se : Int) :
    mkBlockedTime (.instant t) (some 0) none r =
      .ok { datetime := .instant t, duration := some 0, «until» := none, reason := r } ∧
    (BlockedTime.mk (.instant t) (some 0) none r).get_end =
      .error "Either duration, until, or all-day date required" ∧
    is_blockedE [BlockedTime.mk (.instant t) (some 0) none r] ss se =
      .error "Either duration, until, or all-day date required" :=
  ⟨rfl, rfl, rfl⟩

/-- C3: in the reservation step, once the blocked interval has been
appended and saved, a failure of the notification step (a transport
exception or a returned `False`) makes the overall result `false` but
does not remove the appended block: the persisted document still contains
the new `BlockedTime` at the end. -/
theorem reservation_block_survives_email_failure (st : List BlockedTime)
    (t : Int) (dur : Int) (reason : String) (emailRes : Except String Bool)
    (hdur : 0 < dur) (hfail : emailRes ≠ .ok true) :
    save_draft_and_block_slot st (some t) dur reason true emailRes =
      (false, st ++ [{ datetime := .instant t, duration := some dur,
                       «until» := none, reason := some reason }]) := by
  simp only [save_draft_and_block_slot]
  rw [if_neg (by omega : ¬dur ≤ 0), if_neg (by simp : ¬((!true) = true))]
  cases emailRes with
  | error e => rfl
  | ok b =>
    cases b with
    | false => rfl
    | true => exact absurd rfl hfail

/-- Witness for C3: a concrete reservation whose email draft returns
`False` yields overall `false` while the block is persisted. -/
theorem reservation_block_survives_email_failure_w :
    save_draft_and_block_slot [] (some 100) 30 "busy" true (.ok false) =
      (false, [{ datetime := .instant 100, duration := some 30,
                 «until» := none, reason := some "busy" }]) :=
  reservation_block_survives_email_failure [] 100 30 "busy" (.ok false)
    (by decide) (fun h => Bool.noConfusion (Except.ok.inj h))

/-- C4: the operation-level entry points never let an exception escape:
`get_free_slots` returns `[]` when the document load fails and when any
internal error occurs during the search, and `save_draft_and_block_slot`
returns `false` for every failure mode — an unparseable start instant, a
non-positive duration, a storage failure, and a notification transport
failure.  (Both entry points are total functions of the modelled effect
outcomes: no failure is re-raised.) -/
theorem entry_points_degrade (e : String) (mk : Calendar → HolidayChecker)
    (now : Int) (cal : Calendar) (st : List BlockedTime) (dur : Int)
    (reason : String) (storage : Bool) (email : Except String Bool) (t : Int) :
    get_free_slots (.error e) mk now = [] ∧
    (find_available_slots cal (mk cal) now none none 50 2 = .error e →
      get_free_slots (.ok cal) mk now = []) ∧
    save_draft_and_block_slot st none dur reason storage email = (false, st) ∧
    (dur ≤ 0 →
      save_draft_and_block_slot st (some t) dur reason storage email = (false, st)) ∧
    (storage = false →
      save_draft_and_block_slot st (some t) dur reason storage email = (false, st)) ∧
    (email = .error e →
      (save_draft_and_block_slot st (some t) dur reason storage email).1 = false) := by
  refine ⟨rfl, ?_, rfl, ?_, ?_, ?_⟩
  · intro h; simp only [get_free_slots, h]
  · intro h; simp only [save_draft_and_block_slot]; rw [if_pos h]
  · rintro rfl
    simp only [save_draft_and_block_slot]
    by_cases h : dur ≤ 0
    · rw [if_pos h]
    · rw [if_neg h]; rfl
  · rintro rfl
    simp only [save_draft_and_block_slot]
    by_cases h : dur ≤ 0
    · rw [if_pos h]
    · rw [if_neg h]
      cases storage with
      | false => rfl
      | true => rfl

/-- Witness for C4: the degradation paths at concrete inputs, including a
document whose degenerate block makes the slot search raise internally. -/
theorem entry_points_degrade_w :
    get_free_slots (.error "missing") mkEmptyChecker 0 = [] ∧
    get_free_slots (.ok calPoisoned) mkEmptyChecker 0 = [] ∧
    save_draft_and_block_slot [] none 30 "r" true (.ok true) = (false, []) ∧
    save_draft_and_block_slot [] (some 0) (-5) "r" true (.ok true) = (false, []) := by
  refine ⟨?_, ?_, ?_, ?_⟩
  · exact (entry_points_degrade "missing" mkEmptyChecker 0 calPoisoned [] 30 "r" true
      (.ok true) 0).1
  · exact (entry_points_degrade "Either duration, until, or all-day date required"
      mkEmptyChecker 0 calPoisoned [] 30 "r" true (.ok true) 0).2.1 rfl
  · exact (entry_points_degrade "e" mkEmptyChecker 0 calPoisoned [] 30 "r" true
      (.ok true) 0).2.2.1
  · exact (entry_points_degrade "e" mkEmptyChecker 0 calPoisoned [] (-5) "r" true
      (.ok true) 0).2.2.2.1 (by decide)

/-- Unfolding of the leap-year test. -/
theorem isLeapYear_iff (y : Int) :
    isLeapYear y = true ↔ ((y % 4 = 0 ∧ y % 100 ≠ 0) ∨ y % 400 = 0) := by
  simp [isLeapYear]

/-- Every month length is at least 28. -/
theorem daysInMonth_ge_28 (y : Int) (m : Nat) : 28 ≤ daysInMonth y m := by
  unfold daysInMonth; split_ifs <;> omega

/-- February's length. -/
theorem daysInMonth_two (y : Int) :
    daysInMonth y 2 = if isLeapYear y then 29 else 28 := by
  simp [daysInMonth]

/-- Months other than February have a year-independent length. -/
theorem daysInMonth_ne_two (y y' : Int) (m : Nat) (h : m ≠ 2) :
    daysInMonth y m = daysInMonth y' m := by
  unfold daysInMonth; simp [h]

/-- Two years after a leap year is never a leap year. -/
theorem leap_add_two (y : Int) (h : isLeapYear y = true) :
    isLeapYear (y + 2) = false := by
  rw [isLeapYear_iff] at h
  have h4 : y % 4 = 0 := by rcases h with ⟨h, _⟩ | h <;> omega
  rw [Bool.eq_false_iff]
  intro hc
  rw [isLeapYear_iff] at hc
  rcases hc with ⟨hc, _⟩ | hc <;> omega

/-- C1 counterexample: constructed at `now = 2026-10-12`, the precomputed
window ends at 2028-10-12 — two years after `now`, not the three the claim
states (the window is `[now - 1y, (now - 1y) + 3y]`, a 3-year total span,
not 4). -/
theorem holiday_window_cex :
    holidayWindowEnd ⟨2026, 10, 12⟩ = ⟨2028, 10, 12⟩ ∧
    addYears ⟨2026, 10, 12⟩ 3 = ⟨2029, 10, 12⟩ ∧
    holidayWindowEnd ⟨2026, 10, 12⟩ ≠ addYears ⟨2026, 10, 12⟩ 3 := by
  refine ⟨by decide, by decide, by decide⟩

/-- C1 amended: for every `HolidayChecker` constructed with a region code
that has a known rule table, the precomputed fast-lookup set of holiday
dates spans from one year before construction-time "now" through **two**
years after it (a 3-year window total), and `is_holiday d` returns true
iff `d` is in that precomputed set.  (`now` is a real calendar date, so
its day fits its month.) -/
theorem holiday_window_amended (now : CDate)
    (hval : now.day ≤ daysInMonth now.year now.month)
    (tbl : List (String × (CDate → CDate → List CDate))) (c : Option String)
    (d : CDate) :
    holidayWindowStart now = addYears now (-1) ∧
    holidayWindowEnd now = addYears now 2 ∧
    ((mkHolidayChecker tbl c now).is_holiday d = true ↔
      d ∈ (mkHolidayChecker tbl c now).holidaySet) := by
  refine ⟨rfl, ?_, ?_⟩
  · obtain ⟨y, m, day⟩ := now
    simp only [holidayWindowEnd, holidayWindowStart, addYears] at hval ⊢
    rw [show y + -1 + 3 = y + 2 from by ring]
    congr 1
    by_cases hm : m = 2
    · subst hm
      by_cases hday : day ≤ 28
      · rw [min_eq_left (le_trans hday (daysInMonth_ge_28 (y + -1) 2))]
      · rw [daysInMonth_two] at hval
        cases hl : isLeapYear y with
        | false => rw [hl] at hval; simp at hval; omega
        | true =>
          rw [hl] at hval; simp at hval
          have hday29 : day = 29 := by omega
          have hB : daysInMonth (y + 2) 2 = 28 := by
            rw [daysInMonth_two, leap_add_two y hl]; rfl
          subst hday29
          rw [hB]
          cases hA : isLeapYear (y + -1) with
          | false => rw [daysInMonth_two, hA]; rfl
          | true => rw [daysInMonth_two, hA]; rfl
    · rw [daysInMonth_ne_two (y + -1) (y + 2) m hm, min_assoc, min_self]
  · simp [HolidayCheckerC.is_holiday, List.elem_iff, List.contains]

/-- Witness for C1's amended claim at a concrete construction date. -/
theorem holiday_window_amended_w :
    holidayWindowEnd ⟨2026, 1, 15⟩ = addYears ⟨2026, 1, 15⟩ 2 :=
  (holiday_window_amended ⟨2026, 1, 15⟩ (by decide) [] none ⟨2026, 1, 1⟩).2.1

/-- The candidate starts of one interval are strictly increasing. -/
theorem pairwise_candidateStarts (dur : Nat) (hdur : 0 < dur) (ts : TimeSlot) :
    (candidateStarts dur ts).Pairwise (· < ·) := by
  unfold candidateStarts
  rw [List.pairwise_map]
  exact (List.pairwise_lt_range _).imp (fun h => by
    exact Nat.add_lt_add_left ((Nat.mul_lt_mul_right hdur).mpr h) _)

/-- Each candidate start lies inside its interval, with room for a full
slot (inclusive end boundary). -/
theorem mem_candidateStarts {dur : Nat} (hdur : 0 < dur) {ts : TimeSlot} {s : TimeM}
    (hs : s ∈ candidateStarts dur ts) :
    ts.startT ≤ s ∧ s + dur ≤ ts.endT := by
  unfold candidateStarts at hs
  simp only [List.mem_map, List.mem_range] at hs
  obtain ⟨k, hk, rfl⟩ := hs
  refine ⟨Nat.le_add_right _ _, ?_⟩
  have h1 : (k + 1) * dur ≤ ts.endT - ts.startT :=
    (Nat.le_div_iff_mul_le hdur).mp (Nat.succ_le_of_lt hk)
  have h4 : ts.startT + (k + 1) * dur ≤ ts.startT + (ts.endT - ts.startT) :=
    Nat.add_le_add_left h1 _
  have h5 : 0 < (k + 1) * dur := Nat.mul_pos (Nat.succ_pos k) hdur
  have h6 : ts.startT ≤ ts.endT := by
    rcases Nat.le_total ts.startT ts.endT with h | h
    · exact h
    · exfalso
      have h0 : ts.endT - ts.startT = 0 := Nat.sub_eq_zero_of_le h
      rw [h0] at h1
      exact absurd h1 (Nat.not_le.mpr h5)
  have h7 : ts.startT + (ts.endT - ts.startT) = ts.endT := Nat.add_sub_cancel' h6
  calc ts.startT + k * dur + dur = ts.startT + (k + 1) * dur := by ring
    _ ≤ ts.endT := le_of_le_of_eq h4 h7

/-- Facts about every slot kept by the candidate filter: it carries the
queried date and timezone, spans one granularity step starting at one of
the candidate starts, and starts at or after the notice cutoff. -/
theorem mem_filterCandidates {blocked : List BlockedTime} {tz : String} {d : DateD}
    {mb : Int} {dur : Nat} :
    ∀ {cs : List TimeM} {l : List AvailableSlot},
      filterCandidates blocked tz d mb dur cs = .ok l →
      ∀ a ∈ l, a.date = d ∧ a.timezone = tz ∧ a.end_time = a.start_time + dur ∧
        a.start_time ∈ cs ∧ mb ≤ slotDT d a.start_time := by
  intro cs
  induction cs with
  | nil =>
    intro l h a ha
    simp only [filterCandidates] at h
    cases h
    simp at ha
  | cons s rest ih =>
    intro l h a ha
    simp only [filterCandidates] at h
    by_cases hmb : mb ≤ slotDT d s
    · rw [if_pos hmb] at h
      cases hb : is_blockedE blocked (slotDT d s) (slotDT d (s + dur)) with
      | error e => rw [hb, except_bind_error] at h; cases h
      | ok b =>
        rw [hb, except_bind_ok] at h
        cases ht : filterCandidates blocked tz d mb dur rest with
        | error e => rw [ht, except_bind_error] at h; cases h
        | ok tail =>
          rw [ht, except_bind_ok] at h
          cases b with
          | true =>
            cases h
            have := ih ht a ha
            exact ⟨this.1, this.2.1, this.2.2.1, List.mem_cons_of_mem s this.2.2.2.1,
              this.2.2.2.2⟩
          | false =>
            cases h
            rcases List.mem_cons.mp ha with rfl | ha'
            · exact ⟨rfl, rfl, rfl, List.mem_cons_self s rest, hmb⟩
            · have := ih ht a ha'
              exact ⟨this.1, this.2.1, this.2.2.1, List.mem_cons_of_mem s this.2.2.2.1,
                this.2.2.2.2⟩
    · rw [if_neg hmb] at h
      have := ih h a ha
      exact ⟨this.1, this.2.1, this.2.2.1, List.mem_cons_of_mem s this.2.2.2.1,
        this.2.2.2.2⟩

/-- The start times of the kept slots form a sublist of the candidate
starts (the filter preserves generation order). -/
theorem filterCandidates_starts_sublist {blocked : List BlockedTime} {tz : String}
    {d : DateD} {mb : Int} {dur : Nat} :
    ∀ {cs : List TimeM} {l : List AvailableSlot},
      filterCandidates blocked tz d mb dur cs = .ok l →
      List.Sublist (l.map (fun a => a.start_time)) cs := by
  intro cs
  induction cs with
  | nil =>
    intro l h
    simp only [filterCandidates] at h
    cases h
    simp
  | cons s rest ih =>
    intro l h
    simp only [filterCandidates] at h
    by_cases hmb : mb ≤ slotDT d s
    · rw [if_pos hmb] at h
      cases hb : is_blockedE blocked (slotDT d s) (slotDT d (s + dur)) with
      | error e => rw [hb, except_bind_error] at h; cases h
      | ok b =>
        rw [hb, except_bind_ok] at h
        cases ht : filterCandidates blocked tz d mb dur rest with
        | error e => rw [ht, except_bind_error] at h; cases h
        | ok tail =>
          rw [ht, except_bind_ok] at h
          cases b with
          | true => cases h; exact (ih ht).cons s
          | false => cases h; exact (ih ht).cons₂ s
    · rw [if_neg hmb] at h
      exact (ih h).cons s

/-- Kept slots of one interval have strictly increasing start times. -/
theorem pairwise_filterCandidates {blocked : List BlockedTime} {tz : String}
    {d : DateD} {mb : Int} {dur : Nat} {cs : List TimeM} {l : List AvailableSlot}
    (h : filterCandidates blocked tz d mb dur cs = .ok l)
    (hcs : cs.Pairwise (· < ·)) :
    l.Pairwise (fun a b => a.start_time < b.start_time) := by
  have hsub := filterCandidates_starts_sublist h
  have := hcs.sublist hsub
  rwa [List.pairwise_map] at this

/-- Facts about every slot produced for one day's gathered intervals. -/
theorem mem_slotsForIntervals {blocked : List BlockedTime} {tz : String} {d : DateD}
    {mb : Int} {dur : Nat} :
    ∀ {ws : List TimeSlot} {l : List AvailableSlot},
      slotsForIntervals blocked tz d mb dur ws = .ok l →
      ∀ a ∈ l, a.date = d ∧ a.timezone = tz ∧ a.end_time = a.start_time + dur ∧
        mb ≤ slotDT d a.start_time ∧
        ∃ ts ∈ ws, a.start_time ∈ candidateStarts dur ts := by
  intro ws
  induction ws with
  | nil =>
    intro l h a ha
    simp only [slotsForIntervals] at h
    cases h
    simp at ha
  | cons ts rest ih =>
    intro l h a ha
    simp only [slotsForIntervals] at h
    cases h1 : filterCandidates blocked tz d mb dur (candidateStarts dur ts) with
    | error e => rw [h1, except_bind_error] at h; cases h
    | ok here =>
      rw [h1, except_bind_ok] at h
      cases h2 : slotsForIntervals blocked tz d mb dur rest with
      | error e => rw [h2, except_bind_error] at h; cases h
      | ok later =>
        rw [h2, except_bind_ok] at h
        cases h
        rcases List.mem_append.mp ha with ha' | ha'
        · have := mem_filterCandidates h1 a ha'
          exact ⟨this.1, this.2.1, this.2.2.1, this.2.2.2.2,
            ts, List.mem_cons_self ts rest, this.2.2.2.1⟩
        · have := ih h2 a ha'
          obtain ⟨ts', hts', hmem⟩ := this.2.2.2.2
          exact ⟨this.1, this.2.1, this.2.2.1, this.2.2.2.1,
            ts', List.mem_cons_of_mem ts hts', hmem⟩

/-- If the day's gathered intervals are chronologically chained and the
granularity is positive, the slots produced for that day have strictly
increasing start times. -/
theorem pairwise_slotsForIntervals {blocked : List BlockedTime} {tz : String}
    {d : DateD} {mb : Int} {dur : Nat} (hdur : 0 < dur) :
    ∀ {ws : List TimeSlot} {l : List AvailableSlot},
      ws.Pairwise (fun t1 t2 => t1.endT ≤ t2.startT) →
      slotsForIntervals blocked tz d mb dur ws = .ok l →
      l.Pairwise (fun a b => a.start_time < b.start_time) := by
  intro ws
  induction ws with
  | nil =>
    intro l _ h
    simp only [slotsForIntervals] at h
    cases h
    exact List.Pairwise.nil
  | cons ts rest ih =>
    intro l hch h
    simp only [slotsForIntervals] at h
    cases h1 : filterCandidates blocked tz d mb dur (candidateStarts dur ts) with
    | error e => rw [h1, except_bind_error] at h; cases h
    | ok here =>
      rw [h1, except_bind_ok] at h
      cases h2 : slotsForIntervals blocked tz d mb dur rest with
      | error e => rw [h2, except_bind_error] at h; cases h
      | ok later =>
        rw [h2, except_bind_ok] at h
        cases h
        rw [List.pairwise_cons] at hch
        refine List.pairwise_append.mpr
          ⟨pairwise_filterCandidates h1 (pairwise_candidateStarts dur hdur ts),
           ih hch.2 h2, ?_⟩
        intro a ha b hb
        have hafc := mem_filterCandidates h1 a ha
        have hAend : a.start_time + dur ≤ ts.endT :=
          (mem_candidateStarts hdur hafc.2.2.2.1).2
        have hbfc := mem_slotsForIntervals h2 b hb
        obtain ⟨ts', hts', hbmem⟩ := hbfc.2.2.2.2
        have hBstart : ts'.startT ≤ b.start_time := (mem_candidateStarts hdur hbmem).1
        have hcross : ts.endT ≤ ts'.startT := hch.1 ts' hts'
        have hstep : a.start_time < a.start_time + dur := Nat.lt_add_of_pos_right hdur
        exact lt_of_lt_of_le hstep (le_trans hAend (le_trans hcross hBstart))

/-- Every slot produced for a date carries that date and respects the
notice cutoff. -/
theorem mem_get_slots_for_date {cal : Calendar} {hc : HolidayChecker} {d : DateD}
    {mb : Int} {l : List AvailableSlot}
    (h : get_slots_for_date cal hc d mb = .ok l) :
    ∀ a ∈ l, a.date = d ∧ mb ≤ slotDT a.date a.start_time := by
  intro a ha
  unfold get_slots_for_date at h
  split at h
  · cases h; simp at ha
  · split at h
    · cases h; simp at ha
    · have := mem_slotsForIntervals h a ha
      refine ⟨this.1, ?_⟩
      rw [this.1]
      exact this.2.2.2.1

/-- Under a positive granularity and chained gathered intervals, the slots
produced for one date have strictly increasing start times. -/
theorem pairwise_get_slots_for_date {cal : Calendar} {hc : HolidayChecker}
    {d : DateD} {mb : Int} {l : List AvailableSlot}
    (hdur : 0 < cal.schedule.slot_duration)
    (hch : (gatherSlots cal (isoWeekday d)).Pairwise (fun t1 t2 => t1.endT ≤ t2.startT))
    (h : get_slots_for_date cal hc d mb = .ok l) :
    l.Pairwise (fun a b => a.start_time < b.start_time) := by
  unfold get_slots_for_date at h
  split at h
  · cases h; exact List.Pairwise.nil
  · split at h
    · cases h; exact List.Pairwise.nil
    · exact pairwise_slotsForIntervals hdur hch h

/-- Every slot accumulated by the day loop either was already in the
accumulator or starts at or after the notice cutoff. -/
theorem findLoop_mem {cal : Calendar} {hc : HolidayChecker} {mb : Int}
    {maxR : Nat} :
    ∀ {r : Nat} {cur : DateD} {acc l : List AvailableSlot},
      findLoop cal hc mb maxR r cur acc = .ok l →
      ∀ a ∈ l, a ∈ acc ∨ mb ≤ slotDT a.date a.start_time := by
  intro r
  induction r with
  | zero =>
    intro cur acc l h a ha
    simp only [findLoop] at h
    cases h
    exact Or.inl ha
  | succ r ih =>
    intro cur acc l h a ha
    simp only [findLoop] at h
    by_cases hlen : acc.length < maxR
    · rw [if_pos hlen] at h
      cases hd : get_slots_for_date cal hc cur mb with
      | error e => rw [hd, except_bind_error] at h; cases h
      | ok day =>
        rw [hd, except_bind_ok] at h
        rcases ih h a ha with hmem | hbound
        · rcases List.mem_append.mp hmem with hacc | hday
          · exact Or.inl hacc
          · have := mem_get_slots_for_date hd a hday
            exact Or.inr this.2
        · exact Or.inr hbound
    · rw [if_neg hlen] at h
      cases h
      exact Or.inl ha

/-- Pairwise ordering is preserved by the day loop for any relation that
holds across strictly increasing dates and within each day's production. -/
theorem findLoop_pairwise {cal : Calendar} {hc : HolidayChecker} {mb : Int}
    {maxR : Nat} {R : AvailableSlot → AvailableSlot → Prop}
    (hR : ∀ a b, a.date < b.date → R a b)
    (hday : ∀ dd sl, get_slots_for_date cal hc dd mb = .ok sl → sl.Pairwise R) :
    ∀ {r : Nat} {cur : DateD} {acc l : List AvailableSlot},
      findLoop cal hc mb maxR r cur acc = .ok l →
      acc.Pairwise R → (∀ a ∈ acc, a.date < cur) → l.Pairwise R := by
  intro r
  induction r with
  | zero =>
    intro cur acc l h hacc _
    simp only [findLoop] at h
    cases h
    exact hacc
  | succ r ih =>
    intro cur acc l h hacc hdates
    simp only [findLoop] at h
    by_cases hlen : acc.length < maxR
    · rw [if_pos hlen] at h
      cases hd : get_slots_for_date cal hc cur mb with
      | error e => rw [hd, except_bind_error] at h; cases h
      | ok day =>
        rw [hd, except_bind_ok] at h
        have hdaydates : ∀ a ∈ day, a.date = cur :=
          fun a ha => (mem_get_slots_for_date hd a ha).1
        refine ih h ?_ ?_
        · refine List.pairwise_append.mpr ⟨hacc, hday cur day hd, ?_⟩
          intro a ha b hb
          exact hR a b (by rw [hdaydates b hb]; exact hdates a ha)
        · intro a ha
          rcases List.mem_append.mp ha with ha' | ha'
          · exact Nat.lt_succ_of_lt (hdates a ha')
          · rw [hdaydates a ha']; exact Nat.lt_succ_self cur
    · rw [if_neg hlen] at h
      cases h
      exact hacc

/-- C5 amended: the sequence returned by `find_available_slots` has length
at most `max_results` and its dates are ascending; moreover, whenever the
slot granularity is positive and each weekday's gathered intervals are
chronologically chained (every listed interval ends no later than any
later listed one begins), the sequence is fully chronological — dates
ascending and, within a single date, start times strictly ascending. -/
theorem find_slots_bounded_ordered (cal : Calendar) (hc : HolidayChecker)
    (now : Int) (fd td : Option DateD) (maxR : Nat) (notice : Int)
    (l : List AvailableSlot)
    (h : find_available_slots cal hc now fd td maxR notice = .ok l) :
    l.length ≤ maxR ∧ l.Pairwise dateLe ∧
      (0 < cal.schedule.slot_duration → intervalsChained cal →
        l.Pairwise slotLt) := by
  simp only [find_available_slots] at h
  cases hfl : findLoop cal hc (now + notice * 3600) maxR
      ((td.getD (fd.getD (now / 86400).toNat + 30)) + 1 - fd.getD (now / 86400).toNat)
      (fd.getD (now / 86400).toNat) [] with
  | error e => rw [hfl, except_bind_error] at h; cases h
  | ok full =>
    rw [hfl, except_bind_ok] at h
    cases h
    refine ⟨List.length_take_le maxR full, ?_, ?_⟩
    · have hfull : full.Pairwise dateLe := by
        refine findLoop_pairwise (fun a b hab => le_of_lt hab) ?_ hfl
          List.Pairwise.nil (by simp)
        intro dd sl hsl
        refine List.pairwise_of_forall_mem_list ?_
        intro a ha b hb
        show a.date ≤ b.date
        rw [(mem_get_slots_for_date hsl a ha).1, (mem_get_slots_for_date hsl b hb).1]
      exact hfull.sublist (List.take_sublist maxR full)
    · intro hdur hch
      have hfull : full.Pairwise slotLt := by
        refine findLoop_pairwise (fun a b hab => Or.inl hab) ?_ hfl
          List.Pairwise.nil (by simp)
        intro dd sl hsl
        have hwd : isoWeekday dd ≤ 7 := by unfold isoWeekday; omega
        have hp := pairwise_get_slots_for_date hdur (hch (isoWeekday dd) hwd) hsl
        refine hp.imp_of_mem ?_
        intro a b ha hb hab
        exact Or.inr ⟨by
          rw [(mem_get_slots_for_date hsl a ha).1,
            (mem_get_slots_for_date hsl b hb).1], hab⟩
      exact hfull.sublist (List.take_sublist maxR full)

/-- C5 counterexample: on a document whose Monday intervals are listed out
of chronological order, `find_available_slots` returns slots of the same
date with descending start times (13:00-block slots before 09:00-block
slots), so the claimed unconditional chronological ordering fails. -/
theorem find_slots_order_cex :
    find_available_slots calUnordered hcEmpty 0 (some 7) (some 7) 10 0 =
      .ok [{ date := 7, start_time := 780, end_time := 810, timezone := "tz" },
           { date := 7, start_time := 810, end_time := 840, timezone := "tz" },
           { date := 7, start_time := 840, end_time := 870, timezone := "tz" },
           { date := 7, start_time := 870, end_time := 900, timezone := "tz" },
           { date := 7, start_time := 900, end_time := 930, timezone := "tz" },
           { date := 7, start_time := 930, end_time := 960, timezone := "tz" },
           { date := 7, start_time := 960, end_time := 990, timezone := "tz" },
           { date := 7, start_time := 990, end_time := 1020, timezone := "tz" },
           { date := 7, start_time := 540, end_time := 570, timezone := "tz" },
           { date := 7, start_time := 570, end_time := 600, timezone := "tz" }] ∧
    ¬ ([{ date := 7, start_time := 780, end_time := 810, timezone := "tz" },
        { date := 7, start_time := 810, end_time := 840, timezone := "tz" },
        { date := 7, start_time := 840, end_time := 870, timezone := "tz" },
        { date := 7, start_time := 870, end_time := 900, timezone := "tz" },
        { date := 7, start_time := 900, end_time := 930, timezone := "tz" },
        { date := 7, start_time := 930, end_time := 960, timezone := "tz" },
        { date := 7, start_time := 960, end_time := 990, timezone := "tz" },
        { date := 7, start_time := 990, end_time := 1020, timezone := "tz" },
        { date := 7, start_time := 540, end_time := 570, timezone := "tz" },
        { date := 7, start_time := 570, end_time := 600, timezone := "tz" }] :
        List AvailableSlot).Pairwise slotLt := by
  exact ⟨rfl, by decide⟩

/-- Witness for C5's amended claim on a well-ordered document. -/
theorem find_slots_bounded_ordered_w :
    find_available_slots calMorning hcEmpty 0 (some 7) (some 8) 5 0 =
      .ok [{ date := 7, start_time := 540, end_time := 570, timezone := "Europe/Berlin" },
           { date := 7, start_time := 570, end_time := 600, timezone := "Europe/Berlin" },
           { date := 7, start_time := 600, end_time := 630, timezone := "Europe/Berlin" },
           { date := 7, start_time := 630, end_time := 660, timezone := "Europe/Berlin" },
           { date := 7, start_time := 660, end_time := 690, timezone := "Europe/Berlin" }] ∧
    ([{ date := 7, start_time := 540, end_time := 570, timezone := "Europe/Berlin" },
      { date := 7, start_time := 570, end_time := 600, timezone := "Europe/Berlin" },
      { date := 7, start_time := 600, end_time := 630, timezone := "Europe/Berlin" },
      { date := 7, start_time := 630, end_time := 660, timezone := "Europe/Berlin" },
      { date := 7, start_time := 660, end_time := 690, timezone := "Europe/Berlin" }] :
      List AvailableSlot).length ≤ 5 ∧
    ([{ date := 7, start_time := 540, end_time := 570, timezone := "Europe/Berlin" },
      { date := 7, start_time := 570, end_time := 600, timezone := "Europe/Berlin" },
      { date := 7, start_time := 600, end_time := 630, timezone := "Europe/Berlin" },
      { date := 7, start_time := 630, end_time := 660, timezone := "Europe/Berlin" },
      { date := 7, start_time := 660, end_time := 690, timezone := "Europe/Berlin" }] :
      List AvailableSlot).Pairwise slotLt := by
  refine ⟨rfl, (find_slots_bounded_ordered calMorning hcEmpty 0 (some 7) (some 8)
    5 0 _ rfl).1, ((find_slots_bounded_ordered calMorning hcEmpty 0 (some 7) (some 8)
    5 0 _ rfl).2.2 (by decide) (by decide))⟩

/-- C9: on a non-holiday Monday with the single weekly interval
[09:00, 12:00) and 30-minute granularity, no blocks and no notice cutoff,
slot generation produces exactly 6 candidate slots starting 09:00, 09:30,
..., 11:30, each exactly 30 minutes, the last ending exactly at the
interval end (12:00). -/
theorem granularity_coverage (d : DateD) (hwd : isoWeekday d = 1) :
    get_slots_for_date calMorning hcEmpty d 0 =
      .ok [{ date := d, start_time := 540, end_time := 570, timezone := "Europe/Berlin" },
           { date := d, start_time := 570, end_time := 600, timezone := "Europe/Berlin" },
           { date := d, start_time := 600, end_time := 630, timezone := "Europe/Berlin" },
           { date := d, start_time := 630, end_time := 660, timezone := "Europe/Berlin" },
           { date := d, start_time := 660, end_time := 690, timezone := "Europe/Berlin" },
           { date := d, start_time := 690, end_time := 720, timezone := "Europe/Berlin" }] := by
  have hnn : ∀ s : TimeM, (0 : Int) ≤ slotDT d s := fun s => by
    unfold slotDT; positivity
  have hcand : candidateStarts 30 { startT := 540, endT := 720 } =
      [540, 570, 600, 630, 660, 690] := rfl
  simp only [get_slots_for_date, hwd]
  norm_num [hcEmpty, HolidayChecker.is_holiday, gatherSlots, calMorning,
    slotsForIntervals, hcand, filterCandidates, is_blockedE, hnn, except_bind_ok]

/-- Witness for C9 at the concrete Monday `d = 7`. -/
theorem granularity_coverage_w :
    get_slots_for_date calMorning hcEmpty 7 0 =
      .ok [{ date := 7, start_time := 540, end_time := 570, timezone := "Europe/Berlin" },
           { date := 7, start_time := 570, end_time := 600, timezone := "Europe/Berlin" },
           { date := 7, start_time := 600, end_time := 630, timezone := "Europe/Berlin" },
           { date := 7, start_time := 630, end_time := 660, timezone := "Europe/Berlin" },
           { date := 7, start_time := 660, end_time := 690, timezone := "Europe/Berlin" },
           { date := 7, start_time := 690, end_time := 720, timezone := "Europe/Berlin" }] :=
  granularity_coverage 7 rfl

/-- C6: `is_slot_bookable` applies its checks in a fixed short-circuit
order, the first failing check determining the reason: a start instant
strictly before now is rejected as past regardless of any other check; a
holiday (not past) is rejected with the holiday's display name (generic
"Holiday" when the name lookup yields none) regardless of availability;
then "Outside of availability"; then the first overlapping block's stored
reason (or "Blocked", as packaged by `firstOverlapReason`); otherwise it
accepts with an empty reason. -/
theorem bookable_short_circuit (cal : Calendar) (hc : HolidayChecker) (now : Int)
    (d : DateD) (start «end» : TimeM) (r : String) :
    (slotDT d start < now →
      is_slot_bookable cal hc now d start «end» =
        .ok (false, "Timepoint is in the past")) ∧
    (now ≤ slotDT d start → hc.is_holiday d = true →
      is_slot_bookable cal hc now d start «end» =
        .ok (false, (hc.get_holiday_name d).getD "Holiday")) ∧
    (now ≤ slotDT d start → hc.is_holiday d = false →
      day_available cal (isoWeekday d) start «end» = false →
      is_slot_bookable cal hc now d start «end» =
        .ok (false, "Outside of availability")) ∧
    (now ≤ slotDT d start → hc.is_holiday d = false →
      day_available cal (isoWeekday d) start «end» = true →
      is_blockedE cal.blocked (slotDT d start) (slotDT d «end») = .ok true →
      firstOverlapReason cal.blocked (slotDT d start) (slotDT d «end») = .ok (some r) →
      is_slot_bookable cal hc now d start «end» = .ok (false, r)) ∧
    (now ≤ slotDT d start → hc.is_holiday d = false →
      day_available cal (isoWeekday d) start «end» = true →
      is_blockedE cal.blocked (slotDT d start) (slotDT d «end») = .ok false →
      is_slot_bookable cal hc now d start «end» = .ok (true, "")) := by
  refine ⟨?_, ?_, ?_, ?_, ?_⟩
  · intro h1
    simp only [is_slot_bookable]
    rw [if_pos h1]
  · intro h1 h2
    simp only [is_slot_bookable]
    rw [if_neg (not_lt.mpr h1), if_pos h2]
  · intro h1 h2 h3
    simp only [is_slot_bookable]
    rw [if_neg (not_lt.mpr h1), if_neg (by simp [h2]), if_pos (by simp [h3])]
  · intro h1 h2 h3 hb hf
    simp only [is_slot_bookable]
    rw [if_neg (not_lt.mpr h1), if_neg (by simp [h2]), if_neg (by simp [h3]),
      hb, except_bind_ok, if_pos rfl, hf, except_bind_ok]
  · intro h1 h2 h3 hb
    simp only [is_slot_bookable]
    rw [if_neg (not_lt.mpr h1), if_neg (by simp [h2]), if_neg (by simp [h3]),
      hb, except_bind_ok]
    rfl

/-- Witness for C6: each branch at concrete inputs; the past and holiday
scenarios also fail later checks, showing the earlier check wins. -/
theorem bookable_short_circuit_w :
    is_slot_bookable calMorning hcNamed 1000000 7 100 200 =
      .ok (false, "Timepoint is in the past") ∧
    is_slot_bookable calMorning hcNamed 0 7 100 200 =
      .ok (false, "New Year's Day") ∧
    is_slot_bookable calMorning hcNameless 0 7 100 200 = .ok (false, "Holiday") ∧
    is_slot_bookable calMorning hcEmpty 0 7 100 200 =
      .ok (false, "Outside of availability") ∧
    is_slot_bookable calBlocked hcEmpty 0 7 600 630 = .ok (false, "Standup") ∧
    is_slot_bookable calMorning hcEmpty 0 7 540 570 = .ok (true, "") := by
  refine ⟨?_, ?_, ?_, ?_, ?_, ?_⟩
  · exact (bookable_short_circuit calMorning hcNamed 1000000 7 100 200 "x").1
      (by decide)
  · exact (bookable_short_circuit calMorning hcNamed 0 7 100 200 "x").2.1
      (by decide) (by decide)
  · exact (bookable_short_circuit calMorning hcNameless 0 7 100 200 "x").2.1
      (by decide) (by decide)
  · exact (bookable_short_circuit calMorning hcEmpty 0 7 100 200 "x").2.2.1
      (by decide) (by decide) (by decide)
  · exact (bookable_short_circuit calBlocked hcEmpty 0 7 600 630 "Standup").2.2.2.1
      (by decide) (by decide) (by decide) rfl rfl
  · exact (bookable_short_circuit calMorning hcEmpty 0 7 540 570 "x").2.2.2.2
      (by decide) (by decide) (by decide) rfl

/-- C8: `is_slot_bookable` does not apply the minimum-notice buffer — a
slot starting at or after now that passes the holiday, availability and
blocked checks is accepted even when its start lies strictly inside
`now + minNoticeHours` — whereas `find_available_slots` never returns a
slot starting before `now + minNoticeHours`. -/
theorem bookable_ignores_notice (cal : Calendar) (hc : HolidayChecker) (now : Int)
    (d : DateD) (start «end» : TimeM) (notice : Int) (fd td : Option DateD)
    (maxR : Nat) :
    (now ≤ slotDT d start → hc.is_holiday d = false →
      day_available cal (isoWeekday d) start «end» = true →
      is_blockedE cal.blocked (slotDT d start) (slotDT d «end») = .ok false →
      slotDT d start < now + notice * 3600 →
      is_slot_bookable cal hc now d start «end» = .ok (true, "")) ∧
    (∀ l a, find_available_slots cal hc now fd td maxR notice = .ok l → a ∈ l →
      now + notice * 3600 ≤ slotDT a.date a.start_time) := by
  constructor
  · intro h1 h2 h3 hb _
    simp only [is_slot_bookable]
    rw [if_neg (not_lt.mpr h1), if_neg (by simp [h2]), if_neg (by simp [h3]),
      hb, except_bind_ok]
    rfl
  · intro l a h ha
    simp only [find_available_slots] at h
    cases hfl : findLoop cal hc (now + notice * 3600) maxR
        ((td.getD (fd.getD (now / 86400).toNat + 30)) + 1 - fd.getD (now / 86400).toNat)
        (fd.getD (now / 86400).toNat) [] with
    | error e => rw [hfl, except_bind_error] at h; cases h
    | ok full =>
      rw [hfl, except_bind_ok] at h
      cases h
      have hmem : a ∈ full := List.mem_of_mem_take ha
      rcases findLoop_mem hfl a hmem with hin | hbound
      · simp at hin
      · exact hbound

/-- Witness for C8: a slot inside a 24-hour notice buffer is still
accepted by the point query, while range enumeration with a 2-hour notice
only returns slots past the cutoff. -/
theorem bookable_ignores_notice_w :
    is_slot_bookable calMorning hcEmpty 637000 7 540 570 = .ok (true, "") ∧
    (0 : Int) + 2 * 3600 ≤ slotDT 7 540 := by
  constructor
  · exact (bookable_ignores_notice calMorning hcEmpty 637000 7 540 570 24
      none none 10).1 (by decide) (by decide) (by decide) rfl (by decide)
  · exact (bookable_ignores_notice calMorning hcEmpty 0 7 540 570 2
      (some 7) (some 7) 10).2
      [{ date := 7, start_time := 540, end_time := 570, timezone := "Europe/Berlin" },
       { date := 7, start_time := 570, end_time := 600, timezone := "Europe/Berlin" },
       { date := 7, start_time := 600, end_time := 630, timezone := "Europe/Berlin" },
       { date := 7, start_time := 630, end_time := 660, timezone := "Europe/Berlin" },
       { date := 7, start_time := 660, end_time := 690, timezone := "Europe/Berlin" },
       { date := 7, start_time := 690, end_time := 720, timezone := "Europe/Berlin" }]
      { date := 7, start_time := 540, end_time := 570, timezone := "Europe/Berlin" }
      rfl (by decide)

end MeetingScheduler
